import Mathlib

/-!
Verification of the streaming market-analysis pipeline in
`src/reddit_scraper.py`.  The file gives a shallow embedding of the
programs data model and operations: the comment filter
(`is_comment_valid`), the collection loop of `run_analysis_stream`
(search results are materialized, posts are iterated in rank order,
comments are filtered, deduplicated and capped), the summarizer tail
(prompt truncation, streaming relay, error handling, `final_data`),
and the start-message validation of `websocket_endpoint`.

Modelling conventions:
* External collaborators (the search service and the model-completion
  service) are inputs: a `SearchOutcome` is the materialized post list
  or a fatal search failure; an `AiOutcome` is the chunk sequence the
  model stream yields, a mid-stream failure after some chunks, or a
  peer disconnect during the stream.
* A per-post comment-traversal failure (caught and logged by the
  source) yields exactly the state obtained from the prefix of
  comments traversed before the failure, so the model represents the
  traversed comments of each post as the node list of that post.
* Timestamps are modelled as nonnegative seconds since the Unix epoch;
  `formatUtcDate` mirrors `datetime.utcfromtimestamp(...).strftime`.
* Python dynamic values (for the totality analysis of the filter) are
  modelled by `PyVal`; attribute and method errors are `Except.error`.
-/

set_option maxRecDepth 4000

/-! ## Configuration constants (lines 21 to 35 of the source) -/

def SUBREDDIT_TO_SEARCH : String := "all"

def SEARCH_LIMIT_POSTS : Nat := 25

def SORT_POSTS_BY : String := "comments"

def COMMENT_LIMIT_PER_POST : Nat := 100

def REPLACE_MORE_LIMIT : Nat := 0

def TOTAL_COMMENTS_TARGET : Nat := 100

def MAX_COMMENTS_PER_POST_TARGET : Nat := 10

def MIN_COMMENT_WORDS : Nat := 10

def MIN_COMMENT_SCORE : Int := 1

def AI_MODEL_NAME : String := "google/gemini-flash-1.5"

def MAX_INPUT_CHARS_AI : Nat := 15000

/-! ## Word counting: Python `len(s.split())` semantics -/

/-- Counts maximal whitespace-free runs; the Bool records whether the
scan is currently inside a word.  This is `len(s.split())` in Python
(split on runs of whitespace, drop empty pieces). -/
def pyWordCountGo : Bool → List Char → Nat
  | _, [] => 0
  | inWord, c :: rest =>
    if c.isWhitespace then pyWordCountGo false rest
    else (if inWord then 0 else 1) + pyWordCountGo true rest

def pyWordCount (s : String) : Nat := pyWordCountGo false s.data

/-! ## The comment filter (source lines 80 to 88) -/

structure RawComment where
  id : String
  body : String
  score : Int
  created_utc : Nat
deriving DecidableEq

/-- Direct translation of `is_comment_valid` for the well-typed case
(body is a string), which is how the collection loop calls it. -/
def is_comment_valid (comment : RawComment) (min_words : Nat) (min_score : Int) : Bool :=
  (comment.body != "") && (comment.body != "[deleted]") && (comment.body != "[removed]")
    && decide (pyWordCount comment.body ≥ min_words) && decide (comment.score ≥ min_score)

/-! ## Dynamic (untyped) model of the filter, for totality analysis -/

/-- Python runtime values that can sit in the body field. -/
inductive PyVal where
  | none
  | str (s : String)
  | int (n : Int)
  | bool (b : Bool)
deriving DecidableEq

/-- Python truthiness of a `PyVal`. -/
def pyTruthy : PyVal → Bool
  | PyVal.none => false
  | PyVal.str s => s != ""
  | PyVal.int n => n != 0
  | PyVal.bool b => b

/-- Python equality of a value against a string literal: cross-type
comparison is simply unequal. -/
def pyEqStr (v : PyVal) (s : String) : Bool :=
  match v with
  | PyVal.str t => t == s
  | _ => false

/-- A comment record as the Python runtime sees it: the body attribute
may be absent (`Option.none`, attribute access raises) or hold any
dynamic value. -/
structure PyComment where
  body : Option PyVal
  score : Int
deriving DecidableEq

/-- Evaluation of the chain
`body and body != d and body != r and len(body.split()) >= w and score >= s`
under Python dynamic semantics.  A falsy body short-circuits (the chain
returns the falsy value itself); the inequality comparisons against the
sentinel strings never raise; `.split()` raises AttributeError on a
truthy non-string body; a missing body attribute raises at access. -/
def is_comment_valid_dyn (comment : PyComment) (min_words : Nat) (min_score : Int) :
    Except String PyVal :=
  match comment.body with
  | Option.none => Except.error "AttributeError: body"
  | Option.some b =>
    if pyTruthy b then
      if pyEqStr b "[deleted]" then Except.ok (PyVal.bool false)
      else if pyEqStr b "[removed]" then Except.ok (PyVal.bool false)
      else
        match b with
        | PyVal.str s =>
          if pyWordCount s < min_words then Except.ok (PyVal.bool false)
          else Except.ok (PyVal.bool (decide (comment.score ≥ min_score)))
        | _ => Except.error "AttributeError: split"
    else Except.ok b

/-! ## UTC date formatting (source line 164) -/

def pad2 (n : Nat) : String := if n < 10 then "0" ++ toString n else toString n

/-- Civil date from days since the Unix epoch (standard era-based
conversion, as performed by `datetime.utcfromtimestamp`). -/
def civilFromDays (z0 : Nat) : Nat × Nat × Nat :=
  let z := z0 + 719468
  let era := z / 146097
  let doe := z % 146097
  let yoe := (doe - doe / 1460 + doe / 36524 - doe / 146097) / 365
  let y := yoe + era * 400
  let doy := doe - (365 * yoe + yoe / 4 - yoe / 100)
  let mp := (5 * doy + 2) / 153
  let d := doy - (153 * mp + 2) / 5 + 1
  let m := if mp < 10 then mp + 3 else mp - 9
  (if m ≤ 2 then y + 1 else y, m, d)

/-- Models `datetime.utcfromtimestamp(t).strftime(%Y-%m-%d %H:%M:%S UTC)`
for nonnegative integral timestamps. -/
def formatUtcDate (t : Nat) : String :=
  let days := t / 86400
  let secs := t % 86400
  let ymd := civilFromDays days
  toString ymd.1 ++ "-" ++ pad2 ymd.2.1 ++ "-" ++ pad2 ymd.2.2 ++ " " ++
    pad2 (secs / 3600) ++ ":" ++ pad2 ((secs % 3600) / 60) ++ ":" ++ pad2 (secs % 60) ++ " UTC"

/-! ## Collection data model (source lines 121 to 171) -/

structure CollectedComment where
  post_title : String
  post_id : String
  comment_id : String
  comment_body : String
  comment_score : Int
  comment_utc_date : String
deriving DecidableEq

/-- A node of the flattened comment forest `submission.comments.list()`:
either a real comment or a MoreComments placeholder. -/
inductive CommentNode where
  | comment (c : RawComment)
  | more
deriving DecidableEq

structure Post where
  id : String
  title : String
  comments : List CommentNode
deriving DecidableEq

/-- The session-scoped collection state: `collected_comments_data`,
`collected_comment_ids` (the Python set, modelled as a duplicate-free
list grown by insertion of unseen ids), `posts_procesados`. -/
structure CollectState where
  collected_comments_data : List CollectedComment
  collected_comment_ids : List String
  posts_procesados : Nat
deriving DecidableEq

/-- The record appended at source lines 158 to 165. -/
def mkCollected (p : Post) (c : RawComment) : CollectedComment :=
  { post_title := p.title
    post_id := p.id
    comment_id := c.id
    comment_body := c.body
    comment_score := c.score
    comment_utc_date := formatUtcDate c.created_utc }

/-! ## Protocol events and collaborator outcomes -/

inductive Event where
  | status (payload : String)
  | ai_chunk (payload : String)
  | error (payload : String)
  | final_data (comments : List CollectedComment)
deriving DecidableEq

def isStatus : Event → Bool
  | Event.status _ => true
  | _ => false

def isError : Event → Bool
  | Event.error _ => true
  | _ => false

def isAiChunk : Event → Bool
  | Event.ai_chunk _ => true
  | _ => false

def isFinalData : Event → Bool
  | Event.final_data _ => true
  | _ => false

/-- Result of the initial search call (source line 131): the
materialized ranked post list, or a fatal failure. -/
inductive SearchOutcome where
  | ok (posts : List Post)
  | fail (msg : String)
deriving DecidableEq

/-- Behaviour of the model-completion stream: it yields a sequence of
optional text chunks and then either completes, raises, or the peer
disconnects mid-stream (after the listed chunks were relayed). -/
inductive AiOutcome where
  | ok (chunks : List (Option String))
  | fail (sent : List (Option String)) (msg : String)
  | disconnect (sent : List (Option String))
deriving DecidableEq

def AiOutcome.isDisconnect : AiOutcome → Bool
  | AiOutcome.disconnect _ => true
  | _ => false

/-! ## The collection loop (source lines 135 to 171) -/

/-- Inner loop over the flattened comment nodes of one post (source
lines 150 to 167).  Stops when the global target or the per-post cap
is reached; skips MoreComments placeholders and already-seen ids;
appends filtered comments and records their ids. -/
def processComments (p : Post) (nodes : List CommentNode) (st : CollectState)
    (comments_added_from_post : Nat) : CollectState :=
  match nodes with
  | [] => st
  | CommentNode.more :: rest =>
    if st.collected_comments_data.length ≥ TOTAL_COMMENTS_TARGET then st
    else if comments_added_from_post ≥ MAX_COMMENTS_PER_POST_TARGET then st
    else processComments p rest st comments_added_from_post
  | CommentNode.comment c :: rest =>
    if st.collected_comments_data.length ≥ TOTAL_COMMENTS_TARGET then st
    else if comments_added_from_post ≥ MAX_COMMENTS_PER_POST_TARGET then st
    else if st.collected_comment_ids.contains c.id then
      processComments p rest st comments_added_from_post
    else if is_comment_valid c MIN_COMMENT_WORDS MIN_COMMENT_SCORE then
      processComments p rest
        { collected_comments_data := st.collected_comments_data ++ [mkCollected p c]
          collected_comment_ids := c.id :: st.collected_comment_ids
          posts_procesados := st.posts_procesados }
        (comments_added_from_post + 1)
    else processComments p rest st comments_added_from_post

/-- Outer loop over the ranked posts (source lines 135 to 171),
returning the final state and the status events emitted.  `total` is
`len(search_results)`, used only in status text. -/
def collectLoop (total : Nat) (posts : List Post) (st : CollectState) :
    CollectState × List Event :=
  match posts with
  | [] => (st, [])
  | p :: rest =>
    if st.collected_comments_data.length ≥ TOTAL_COMMENTS_TARGET then
      (st, [Event.status ("Límite total de " ++ toString TOTAL_COMMENTS_TARGET ++
        " comentarios alcanzado.")])
    else
      ((collectLoop total rest (processComments p p.comments
          { collected_comments_data := st.collected_comments_data
            collected_comment_ids := st.collected_comment_ids
            posts_procesados := st.posts_procesados + 1 } 0)).1,
        Event.status ("Procesando Post " ++ toString (st.posts_procesados + 1) ++ "/" ++
          toString total ++ ": \x27" ++ String.mk (p.title.data.take 50) ++ "...\x27") ::
        (collectLoop total rest (processComments p p.comments
          { collected_comments_data := st.collected_comments_data
            collected_comment_ids := st.collected_comment_ids
            posts_procesados := st.posts_procesados + 1 } 0)).2)

def initState : CollectState :=
  { collected_comments_data := [], collected_comment_ids := [], posts_procesados := 0 }

/-- The collection phase run from the empty session state, including
the posts-found status event (source line 133). -/
def runCollection (posts : List Post) : CollectState × List Event :=
  ((collectLoop posts.length posts initState).1,
    Event.status (toString posts.length ++ " posts encontrados inicialmente.") ::
      (collectLoop posts.length posts initState).2)

/-! ## Summarizer prompt construction (source lines 190 to 196) -/

def TRUNC_MARKER : String := "... [TRUNCADO]"

/-- Python slicing `s[:n]` on text: the first `n` characters. -/
def firstChars (n : Nat) (s : String) : String := String.mk (s.data.take n)

/-- Source line 190: join the collected bodies with blank lines. -/
def buildCorpus (cs : List CollectedComment) : String :=
  String.intercalate "\n\n" (cs.map (fun c => c.comment_body))

/-- Source lines 191 to 193: hard character cutoff plus marker when the
corpus exceeds the budget, identity otherwise. -/
def truncCore (maxChars : Nat) (s : String) : String :=
  if s.length > maxChars then firstChars maxChars s ++ TRUNC_MARKER else s

def comments_text_for_ai (cs : List CollectedComment) : String :=
  truncCore MAX_INPUT_CHARS_AI (buildCorpus cs)

def system_prompt : String :=
  "Eres un asistente de análisis de mercado experto. Analiza los siguientes comentarios de Reddit sobre un tema específico. Tu objetivo es extraer información valiosa para entender al público."

def user_prompt (search_term : String) (cs : List CollectedComment) : String :=
  "Aquí tienes una colección de comentarios de Reddit sobre el tema \x27" ++ search_term ++
  "\x27:\n\n---\n" ++ comments_text_for_ai cs ++
  "\n---\n\nPor favor, realiza un análisis conciso e identifica:\n1.  **Términos Clave y Temas Recurrentes:** Palabras o conceptos que aparecen frecuentemente.\n2.  **Situaciones, Problemas o Necesidades Comunes:** ¿Qué circunstancias o dificultades mencionan los usuarios relacionadas con el tema?\n3.  **Sentimientos Generales:** ¿Hay tendencias claras de opiniones positivas, negativas o neutrales? Menciona ejemplos si es posible.\n4.  **Posibles Insights:** ¿Alguna observación interesante o conclusión que se pueda sacar sobre este público o mercado basada en los comentarios?\n\nFormatea tu respuesta usando Markdown para claridad."

/-! ## Summarizer tail of the stream (source lines 186 to 227) -/

/-- Relay of the model stream (source lines 211 to 215): each chunk
whose content is present and non-empty becomes an `ai_chunk` event. -/
def aiChunkEvents (chunks : List (Option String)) : List Event :=
  chunks.filterMap (fun c =>
    match c with
    | Option.some s => if s == "" then Option.none else Option.some (Event.ai_chunk s)
    | Option.none => Option.none)

/-- The code from source line 186 to 227: the empty-collection
short-circuit (status only, no model call, early return with no
`final_data`), otherwise the model call followed by chunk relay,
completion status or terminal error, and `final_data`.  The Bool
records whether the model-completion collaborator was invoked. -/
def postCollection (collected : List CollectedComment) (ai : AiOutcome) :
    List Event × Bool :=
  if collected.isEmpty then
    ([Event.status "No se encontraron comentarios válidos para análisis."], false)
  else
    (Event.status ("Llamando a IA (" ++ AI_MODEL_NAME ++ ")...") ::
      (match ai with
       | AiOutcome.ok chunks =>
         aiChunkEvents chunks ++
           [Event.status "Análisis de IA completado.", Event.final_data collected]
       | AiOutcome.fail sent msg =>
         aiChunkEvents sent ++
           [Event.error ("Error en análisis IA: " ++ msg), Event.final_data collected]
       | AiOutcome.disconnect sent => aiChunkEvents sent), true)

/-- The event trace of `run_analysis_stream` for a session whose
collaborator clients initialize successfully and whose peer stays
connected through the collection phase (source lines 92 to 227). -/
def run_analysis_stream (search_term : String) (search : SearchOutcome)
    (ai : AiOutcome) : List Event :=
  Event.status "Inicializando..." ::
  Event.status ("Buscando posts para \x27" ++ search_term ++ "\x27...") ::
  (match search with
   | SearchOutcome.fail msg => [Event.error ("Error en Reddit: " ++ msg)]
   | SearchOutcome.ok posts =>
     (runCollection posts).2 ++
       (Event.status ("Recolección finalizada. " ++
          toString (runCollection posts).1.collected_comments_data.length ++
          " comentarios válidos encontrados.") ::
        (postCollection (runCollection posts).1.collected_comments_data ai).1))

/-! ## Start-message validation (source lines 241 to 249) -/

/-- Decoded JSON values as far as the validation inspects them: the
check compares the action value against the string start and tests key
presence of term, so only string values need to be distinguished. -/
inductive JValue where
  | str (s : String)
  | other
deriving DecidableEq

/-- Python `dict.get` on the decoded object. -/
def jget (m : List (String × JValue)) (k : String) : Option JValue :=
  (m.find? (fun kv => kv.1 == k)).map (fun kv => kv.2)

/-- Source line 243: `message.get("action") == "start" and "term" in message`. -/
def websocket_endpoint_validate (m : List (String × JValue)) : Bool :=
  (jget m "action" == Option.some (JValue.str "start")) && (jget m "term").isSome

inductive EndpointStep where
  | runAnalysis (term : JValue)
  | reject (errPayload : String)
deriving DecidableEq

def INVALID_START_MSG : String :=
  "Mensaje inicial inválido. Envía \x7b\x27action\x27: \x27start\x27, \x27term\x27: \x27tu_termino\x27\x7d."

/-- The branch taken by `websocket_endpoint` on a decoded first
message: run the analysis with the extracted term, or send the
expected-shape error event. -/
def websocket_endpoint_step (m : List (String × JValue)) : EndpointStep :=
  if websocket_endpoint_validate m then
    EndpointStep.runAnalysis ((jget m "term").getD JValue.other)
  else EndpointStep.reject INVALID_START_MSG

/-! ## Concrete sample inputs used in counterexamples and witnesses -/

/-- The id list is exactly the reversed id column of the collected
sequence and stays duplicate-free (the set semantics of
`collected_comment_ids`). -/
def SeenInv (st : CollectState) : Prop :=
  st.collected_comment_ids =
    (st.collected_comments_data.map (fun cc => cc.comment_id)).reverse ∧
  st.collected_comment_ids.Nodup

/-- The events of the stream preceding the summarizer tail: the two
opening status events, the collection-loop events, and the
collection-finished status event. -/
def streamHeader (search_term : String) (posts : List Post) : List Event :=
  Event.status "Inicializando..." ::
  Event.status ("Buscando posts para \x27" ++ search_term ++ "\x27...") ::
  (runCollection posts).2 ++
  [Event.status ("Recolección finalizada. " ++
    toString (runCollection posts).1.collected_comments_data.length ++
    " comentarios válidos encontrados.")]

/-- A body of exactly ten whitespace-separated words. -/
def tenWordBody : String := "uno dos tres cuatro cinco seis siete ocho nueve diez"

/-- A comment that passes the filter at the configured thresholds. -/
def sampleComment (i : Nat) : RawComment :=
  { id := "c" ++ toString i, body := tenWordBody, score := 1, created_utc := 0 }

/-- A post with eleven distinct valid comments. -/
def dupPost : Post :=
  { id := "p1", title := "Post",
    comments := (List.range 11).map (fun i => CommentNode.comment (sampleComment i)) }

/-- A post with a single valid comment. -/
def onePost : Post :=
  { id := "p1", title := "Post", comments := [CommentNode.comment (sampleComment 0)] }

/-- A comment with exactly three words and score exactly two. -/
def boundaryComment : RawComment :=
  { id := "b", body := "uno dos tres", score := 2, created_utc := 0 }

/-! ## Helper lemmas: the inner comment loop -/

@[simp] lemma mkCollected_comment_id (p : Post) (c : RawComment) :
    (mkCollected p c).comment_id = c.id := rfl

@[simp] lemma mkCollected_post_id (p : Post) (c : RawComment) :
    (mkCollected p c).post_id = p.id := rfl

/-- Structure of one pass of the inner loop: it appends at most
`MAX_COMMENTS_PER_POST_TARGET - added` new records, all carrying the
post id of the processed post and ids unseen at entry; the id set only
receives new entries; the post counter is untouched. -/
lemma processComments_spec (p : Post) (nodes : List CommentNode) :
    ∀ (st : CollectState) (added : Nat),
      ∃ new : List CollectedComment,
        (processComments p nodes st added).collected_comments_data =
            st.collected_comments_data ++ new ∧
        new.length ≤ MAX_COMMENTS_PER_POST_TARGET - added ∧
        (∀ cc ∈ new, cc.post_id = p.id ∧ cc.comment_id ∉ st.collected_comment_ids) ∧
        (∃ ids : List String,
          (processComments p nodes st added).collected_comment_ids =
            ids ++ st.collected_comment_ids) ∧
        (processComments p nodes st added).posts_procesados = st.posts_procesados := by
  induction nodes with
  | nil =>
    intro st added
    exact ⟨[], by simp [processComments], by simp, by simp,
      ⟨[], by simp [processComments]⟩, by simp [processComments]⟩
  | cons node rest ih =>
    intro st added
    by_cases h1 : st.collected_comments_data.length ≥ TOTAL_COMMENTS_TARGET
    · have hres : processComments p (node :: rest) st added = st := by
        cases node <;> (simp only [processComments]; rw [if_pos h1])
      exact ⟨[], by rw [hres]; simp, by simp, by simp, ⟨[], by rw [hres]; simp⟩,
        by rw [hres]⟩
    · by_cases h2 : added ≥ MAX_COMMENTS_PER_POST_TARGET
      · have hres : processComments p (node :: rest) st added = st := by
          cases node <;> (simp only [processComments]; rw [if_neg h1, if_pos h2])
        exact ⟨[], by rw [hres]; simp, by simp, by simp, ⟨[], by rw [hres]; simp⟩,
          by rw [hres]⟩
      · cases node with
        | more =>
          have hres : processComments p (CommentNode.more :: rest) st added =
              processComments p rest st added := by
            simp only [processComments]; rw [if_neg h1, if_neg h2]
          rw [hres]; exact ih st added
        | comment c =>
          by_cases h3 : st.collected_comment_ids.contains c.id = true
          · have hres : processComments p (CommentNode.comment c :: rest) st added =
                processComments p rest st added := by
              simp only [processComments]; rw [if_neg h1, if_neg h2, if_pos h3]
            rw [hres]; exact ih st added
          · by_cases h4 : is_comment_valid c MIN_COMMENT_WORDS MIN_COMMENT_SCORE = true
            · have hres : processComments p (CommentNode.comment c :: rest) st added =
                  processComments p rest
                    { collected_comments_data :=
                        st.collected_comments_data ++ [mkCollected p c]
                      collected_comment_ids := c.id :: st.collected_comment_ids
                      posts_procesados := st.posts_procesados } (added + 1) := by
                simp only [processComments]; rw [if_neg h1, if_neg h2, if_neg h3, if_pos h4]
              obtain ⟨new, hcoll, hlen, hprops, ⟨ids, hids⟩, hposts⟩ :=
                ih { collected_comments_data := st.collected_comments_data ++ [mkCollected p c]
                     collected_comment_ids := c.id :: st.collected_comment_ids
                     posts_procesados := st.posts_procesados } (added + 1)
              rw [hres]
              refine ⟨mkCollected p c :: new, ?_, ?_, ?_, ⟨ids ++ [c.id], ?_⟩, ?_⟩
              · rw [hcoll]; simp
              · have h2' : added < MAX_COMMENTS_PER_POST_TARGET := Nat.lt_of_not_le h2
                simp only [List.length_cons]
                omega
              · intro cc hcc
                rcases List.mem_cons.mp hcc with rfl | hcc'
                · refine ⟨rfl, fun hmem => h3 ?_⟩
                  simpa using hmem
                · obtain ⟨hpid, hnid⟩ := hprops cc hcc'
                  exact ⟨hpid, fun hmem => hnid (List.mem_cons_of_mem _ hmem)⟩
              · rw [hids]; simp
              · rw [hposts]
            · have hres : processComments p (CommentNode.comment c :: rest) st added =
                  processComments p rest st added := by
                simp only [processComments]; rw [if_neg h1, if_neg h2, if_neg h3, if_neg h4]
              rw [hres]; exact ih st added

/-- The inner loop never pushes the total count past the global target. -/
lemma processComments_total_le (p : Post) (nodes : List CommentNode) :
    ∀ (st : CollectState) (added : Nat),
      st.collected_comments_data.length ≤ TOTAL_COMMENTS_TARGET →
      (processComments p nodes st added).collected_comments_data.length ≤
        TOTAL_COMMENTS_TARGET := by
  induction nodes with
  | nil => intro st added h; simpa [processComments] using h
  | cons node rest ih =>
    intro st added h
    by_cases h1 : st.collected_comments_data.length ≥ TOTAL_COMMENTS_TARGET
    · have hres : processComments p (node :: rest) st added = st := by
        cases node <;> (simp only [processComments]; rw [if_pos h1])
      rw [hres]; exact h
    · by_cases h2 : added ≥ MAX_COMMENTS_PER_POST_TARGET
      · have hres : processComments p (node :: rest) st added = st := by
          cases node <;> (simp only [processComments]; rw [if_neg h1, if_pos h2])
        rw [hres]; exact h
      · cases node with
        | more =>
          have hres : processComments p (CommentNode.more :: rest) st added =
              processComments p rest st added := by
            simp only [processComments]; rw [if_neg h1, if_neg h2]
          rw [hres]; exact ih st added h
        | comment c =>
          by_cases h3 : st.collected_comment_ids.contains c.id = true
          · have hres : processComments p (CommentNode.comment c :: rest) st added =
                processComments p rest st added := by
              simp only [processComments]; rw [if_neg h1, if_neg h2, if_pos h3]
            rw [hres]; exact ih st added h
          · by_cases h4 : is_comment_valid c MIN_COMMENT_WORDS MIN_COMMENT_SCORE = true
            · have hres : processComments p (CommentNode.comment c :: rest) st added =
                  processComments p rest
                    { collected_comments_data :=
                        st.collected_comments_data ++ [mkCollected p c]
                      collected_comment_ids := c.id :: st.collected_comment_ids
                      posts_procesados := st.posts_procesados } (added + 1) := by
                simp only [processComments]; rw [if_neg h1, if_neg h2, if_neg h3, if_pos h4]
              rw [hres]
              apply ih
              have h1' : st.collected_comments_data.length < TOTAL_COMMENTS_TARGET :=
                Nat.lt_of_not_le h1
              simp only [List.length_append, List.length_cons, List.length_nil]
              omega
            · have hres : processComments p (CommentNode.comment c :: rest) st added =
                  processComments p rest st added := by
                simp only [processComments]; rw [if_neg h1, if_neg h2, if_neg h3, if_neg h4]
              rw [hres]; exact ih st added h

lemma processComments_inv (p : Post) (nodes : List CommentNode) :
    ∀ (st : CollectState) (added : Nat),
      SeenInv st → SeenInv (processComments p nodes st added) := by
  induction nodes with
  | nil => intro st added h; simpa [processComments] using h
  | cons node rest ih =>
    intro st added h
    by_cases h1 : st.collected_comments_data.length ≥ TOTAL_COMMENTS_TARGET
    · have hres : processComments p (node :: rest) st added = st := by
        cases node <;> (simp only [processComments]; rw [if_pos h1])
      rw [hres]; exact h
    · by_cases h2 : added ≥ MAX_COMMENTS_PER_POST_TARGET
      · have hres : processComments p (node :: rest) st added = st := by
          cases node <;> (simp only [processComments]; rw [if_neg h1, if_pos h2])
        rw [hres]; exact h
      · cases node with
        | more =>
          have hres : processComments p (CommentNode.more :: rest) st added =
              processComments p rest st added := by
            simp only [processComments]; rw [if_neg h1, if_neg h2]
          rw [hres]; exact ih st added h
        | comment c =>
          by_cases h3 : st.collected_comment_ids.contains c.id = true
          · have hres : processComments p (CommentNode.comment c :: rest) st added =
                processComments p rest st added := by
              simp only [processComments]; rw [if_neg h1, if_neg h2, if_pos h3]
            rw [hres]; exact ih st added h
          · by_cases h4 : is_comment_valid c MIN_COMMENT_WORDS MIN_COMMENT_SCORE = true
            · have hres : processComments p (CommentNode.comment c :: rest) st added =
                  processComments p rest
                    { collected_comments_data :=
                        st.collected_comments_data ++ [mkCollected p c]
                      collected_comment_ids := c.id :: st.collected_comment_ids
                      posts_procesados := st.posts_procesados } (added + 1) := by
                simp only [processComments]; rw [if_neg h1, if_neg h2, if_neg h3, if_pos h4]
              rw [hres]
              apply ih
              have hnotmem : c.id ∉ st.collected_comment_ids := by
                intro hmem; exact h3 (by simpa using hmem)
              constructor
              · simp only [List.map_append, List.map_cons, List.map_nil,
                  List.reverse_append, List.reverse_cons, List.reverse_nil,
                  List.nil_append, List.singleton_append, mkCollected_comment_id,
                  List.cons_append]
                rw [h.1]
              · exact List.nodup_cons.mpr ⟨hnotmem, h.2⟩
            · have hres : processComments p (CommentNode.comment c :: rest) st added =
                  processComments p rest st added := by
                simp only [processComments]; rw [if_neg h1, if_neg h2, if_neg h3, if_neg h4]
              rw [hres]; exact ih st added h

/-! ## Helper lemmas: the outer post loop -/

/-- Structure of the outer loop: the collected sequence only grows, the
new records carry ids unseen at entry, and the id list only receives
new entries. -/
lemma collectLoop_spec (total : Nat) (posts : List Post) :
    ∀ st : CollectState,
      ∃ new : List CollectedComment,
        (collectLoop total posts st).1.collected_comments_data =
          st.collected_comments_data ++ new ∧
        (∀ cc ∈ new, cc.comment_id ∉ st.collected_comment_ids) ∧
        ∃ ids : List String,
          (collectLoop total posts st).1.collected_comment_ids =
            ids ++ st.collected_comment_ids := by
  induction posts with
  | nil =>
    intro st
    exact ⟨[], by simp [collectLoop], by simp, ⟨[], by simp [collectLoop]⟩⟩
  | cons p rest ih =>
    intro st
    by_cases h1 : st.collected_comments_data.length ≥ TOTAL_COMMENTS_TARGET
    · have hres : (collectLoop total (p :: rest) st).1 = st := by
        simp only [collectLoop]; rw [if_pos h1]
      exact ⟨[], by rw [hres]; simp, by simp, ⟨[], by rw [hres]; simp⟩⟩
    · have hres : (collectLoop total (p :: rest) st).1 =
          (collectLoop total rest (processComments p p.comments
            { collected_comments_data := st.collected_comments_data
              collected_comment_ids := st.collected_comment_ids
              posts_procesados := st.posts_procesados + 1 } 0)).1 := by
        simp only [collectLoop]; rw [if_neg h1]
      obtain ⟨n1, hc1, _, hp1, ⟨i1, hi1⟩, _⟩ :=
        processComments_spec p p.comments
          { collected_comments_data := st.collected_comments_data
            collected_comment_ids := st.collected_comment_ids
            posts_procesados := st.posts_procesados + 1 } 0
      obtain ⟨n2, hc2, hp2, ⟨i2, hi2⟩⟩ :=
        ih (processComments p p.comments
          { collected_comments_data := st.collected_comments_data
            collected_comment_ids := st.collected_comment_ids
            posts_procesados := st.posts_procesados + 1 } 0)
      refine ⟨n1 ++ n2, ?_, ?_, ⟨i2 ++ i1, ?_⟩⟩
      · rw [hres, hc2, hc1]; simp
      · intro cc hcc
        rcases List.mem_append.mp hcc with h | h
        · exact (hp1 cc h).2
        · intro hm
          exact hp2 cc h (by rw [hi1]; exact List.mem_append_right _ hm)
      · rw [hres, hi2, hi1]; simp

/-- The outer loop never pushes the total count past the global target. -/
lemma collectLoop_total_le (total : Nat) (posts : List Post) :
    ∀ st : CollectState,
      st.collected_comments_data.length ≤ TOTAL_COMMENTS_TARGET →
      (collectLoop total posts st).1.collected_comments_data.length ≤
        TOTAL_COMMENTS_TARGET := by
  induction posts with
  | nil => intro st h; simpa [collectLoop] using h
  | cons p rest ih =>
    intro st h
    by_cases h1 : st.collected_comments_data.length ≥ TOTAL_COMMENTS_TARGET
    · have hres : (collectLoop total (p :: rest) st).1 = st := by
        simp only [collectLoop]; rw [if_pos h1]
      rw [hres]; exact h
    · have hres : (collectLoop total (p :: rest) st).1 =
          (collectLoop total rest (processComments p p.comments
            { collected_comments_data := st.collected_comments_data
              collected_comment_ids := st.collected_comment_ids
              posts_procesados := st.posts_procesados + 1 } 0)).1 := by
        simp only [collectLoop]; rw [if_neg h1]
      rw [hres]
      exact ih _ (processComments_total_le p p.comments _ 0 h)

/-- The outer loop preserves the id-list invariant. -/
lemma collectLoop_inv (total : Nat) (posts : List Post) :
    ∀ st : CollectState, SeenInv st → SeenInv (collectLoop total posts st).1 := by
  induction posts with
  | nil => intro st h; simpa [collectLoop] using h
  | cons p rest ih =>
    intro st h
    by_cases h1 : st.collected_comments_data.length ≥ TOTAL_COMMENTS_TARGET
    · have hres : (collectLoop total (p :: rest) st).1 = st := by
        simp only [collectLoop]; rw [if_pos h1]
      rw [hres]; exact h
    · have hres : (collectLoop total (p :: rest) st).1 =
          (collectLoop total rest (processComments p p.comments
            { collected_comments_data := st.collected_comments_data
              collected_comment_ids := st.collected_comment_ids
              posts_procesados := st.posts_procesados + 1 } 0)).1 := by
        simp only [collectLoop]; rw [if_neg h1]
      rw [hres]
      exact ih _ (processComments_inv p p.comments _ 0 h)

/-- Per-post cap bookkeeping: under pairwise-distinct post ids, one
pass adds at most the per-post cap for its own id and nothing for any
other id. -/
lemma collectLoop_per_post (pid : String) (total : Nat) (posts : List Post) :
    ∀ st : CollectState,
      (posts.map Post.id).Nodup →
      ((collectLoop total posts st).1.collected_comments_data.filter
          (fun cc => cc.post_id == pid)).length ≤
        (st.collected_comments_data.filter (fun cc => cc.post_id == pid)).length +
          (if pid ∈ posts.map Post.id then MAX_COMMENTS_PER_POST_TARGET else 0) := by
  induction posts with
  | nil => intro st _; simp [collectLoop]
  | cons p rest ih =>
    intro st hnd
    rw [List.map_cons, List.nodup_cons] at hnd
    obtain ⟨hpnotin, hndrest⟩ := hnd
    by_cases h1 : st.collected_comments_data.length ≥ TOTAL_COMMENTS_TARGET
    · have hres : (collectLoop total (p :: rest) st).1 = st := by
        simp only [collectLoop]; rw [if_pos h1]
      rw [hres]
      exact Nat.le_add_right _ _
    · have hres : (collectLoop total (p :: rest) st).1 =
          (collectLoop total rest (processComments p p.comments
            { collected_comments_data := st.collected_comments_data
              collected_comment_ids := st.collected_comment_ids
              posts_procesados := st.posts_procesados + 1 } 0)).1 := by
        simp only [collectLoop]; rw [if_neg h1]
      rw [hres]
      obtain ⟨n1, hc1, hlen1, hp1, _, _⟩ :=
        processComments_spec p p.comments
          { collected_comments_data := st.collected_comments_data
            collected_comment_ids := st.collected_comment_ids
            posts_procesados := st.posts_procesados + 1 } 0
      have hrest := ih (processComments p p.comments
            { collected_comments_data := st.collected_comments_data
              collected_comment_ids := st.collected_comment_ids
              posts_procesados := st.posts_procesados + 1 } 0) hndrest
      rw [hc1] at hrest
      simp only [List.filter_append, List.length_append] at hrest
      by_cases hpd : p.id = pid
      · have hnotin : pid ∉ rest.map Post.id := by rw [← hpd]; exact hpnotin
        rw [if_neg hnotin] at hrest
        have hmem : pid ∈ (p :: rest).map Post.id := by
          rw [List.map_cons, ← hpd]; exact List.mem_cons_self _ _
        rw [if_pos hmem]
        have hcount : (n1.filter (fun cc => cc.post_id == pid)).length ≤
            MAX_COMMENTS_PER_POST_TARGET := by
          calc (n1.filter (fun cc => cc.post_id == pid)).length ≤ n1.length :=
                List.length_filter_le _ _
            _ ≤ MAX_COMMENTS_PER_POST_TARGET - 0 := hlen1
            _ = MAX_COMMENTS_PER_POST_TARGET := Nat.sub_zero _
        omega
      · have hcount : (n1.filter (fun cc => cc.post_id == pid)).length = 0 := by
          rw [List.length_eq_zero]
          rw [List.filter_eq_nil_iff]
          intro cc hcc
          have := (hp1 cc hcc).1
          simp [this, hpd]
        rw [hcount] at hrest
        by_cases hm : pid ∈ rest.map Post.id
        · rw [if_pos hm] at hrest
          have hmem : pid ∈ (p :: rest).map Post.id := by
            rw [List.map_cons]; exact List.mem_cons_of_mem _ hm
          rw [if_pos hmem]
          omega
        · rw [if_neg hm] at hrest
          rcases Decidable.em (pid ∈ (p :: rest).map Post.id) with hmm | hmm
          · rw [if_pos hmm]; omega
          · rw [if_neg hmm]; omega

/-- Every event the post loop emits is a status event. -/
lemma collectLoop_events_status (total : Nat) (posts : List Post) :
    ∀ st : CollectState, ∀ e ∈ (collectLoop total posts st).2, isStatus e = true := by
  induction posts with
  | nil => intro st e he; simp [collectLoop] at he
  | cons p rest ih =>
    intro st e he
    by_cases h1 : st.collected_comments_data.length ≥ TOTAL_COMMENTS_TARGET
    · have hev : (collectLoop total (p :: rest) st).2 =
          [Event.status ("Límite total de " ++ toString TOTAL_COMMENTS_TARGET ++
            " comentarios alcanzado.")] := by
        simp only [collectLoop]; rw [if_pos h1]
      rw [hev] at he
      rcases List.mem_singleton.mp he with rfl
      rfl
    · have hev : (collectLoop total (p :: rest) st).2 =
          Event.status ("Procesando Post " ++ toString (st.posts_procesados + 1) ++ "/" ++
            toString total ++ ": \x27" ++ String.mk (p.title.data.take 50) ++ "...\x27") ::
          (collectLoop total rest (processComments p p.comments
            { collected_comments_data := st.collected_comments_data
              collected_comment_ids := st.collected_comment_ids
              posts_procesados := st.posts_procesados + 1 } 0)).2 := by
        simp only [collectLoop]; rw [if_neg h1]
      rw [hev] at he
      rcases List.mem_cons.mp he with rfl | he'
      · rfl
      · exact ih _ e he'

/-! ## Helper lemmas: event traces -/

lemma aiChunkEvents_shape (chunks : List (Option String)) :
    ∀ e ∈ aiChunkEvents chunks, isAiChunk e = true := by
  intro e he
  unfold aiChunkEvents at he
  obtain ⟨c, _, hc⟩ := List.mem_filterMap.mp he
  cases c with
  | none => simp at hc
  | some s =>
    by_cases hs : (s == "") = true
    · simp [hs] at hc
    · simp [hs] at hc
      cases hc
      rfl

lemma isStatus_classify (e : Event) (h : isStatus e = true) :
    isError e = false ∧ isFinalData e = false ∧ isAiChunk e = false := by
  cases e <;> simp_all [isStatus, isError, isFinalData, isAiChunk]

lemma isAiChunk_classify (e : Event) (h : isAiChunk e = true) :
    isError e = false ∧ isFinalData e = false := by
  cases e <;> simp_all [isAiChunk, isError, isFinalData]

lemma filter_eq_nil_of_none {pr : Event → Bool} (l : List Event)
    (h : ∀ e ∈ l, pr e = false) : l.filter pr = [] := by
  rw [List.filter_eq_nil_iff]
  intro a ha
  simp [h a ha]

lemma streamHeader_status (search_term : String) (posts : List Post) :
    ∀ e ∈ streamHeader search_term posts, isStatus e = true := by
  intro e he
  unfold streamHeader at he
  rcases List.mem_cons.mp he with rfl | he
  · rfl
  rcases List.mem_cons.mp he with rfl | he
  · rfl
  rcases List.mem_append.mp he with he | he
  · unfold runCollection at he
    rcases List.mem_cons.mp he with rfl | he
    · rfl
    · exact collectLoop_events_status _ _ _ e he
  · rcases List.mem_singleton.mp he with rfl
    rfl

lemma run_stream_ok_decomp (search_term : String) (posts : List Post) (ai : AiOutcome) :
    run_analysis_stream search_term (SearchOutcome.ok posts) ai =
      streamHeader search_term posts ++
        (postCollection (runCollection posts).1.collected_comments_data ai).1 := by
  simp [run_analysis_stream, streamHeader, List.append_assoc]

lemma postCollection_nonempty_ok (collected : List CollectedComment)
    (chunks : List (Option String)) (h : collected ≠ []) :
    (postCollection collected (AiOutcome.ok chunks)).1 =
      Event.status ("Llamando a IA (" ++ AI_MODEL_NAME ++ ")...") ::
      aiChunkEvents chunks ++
        [Event.status "Análisis de IA completado.", Event.final_data collected] := by
  cases collected with
  | nil => exact absurd rfl h
  | cons a l => rfl

lemma postCollection_nonempty_fail (collected : List CollectedComment)
    (sent : List (Option String)) (msg : String) (h : collected ≠ []) :
    (postCollection collected (AiOutcome.fail sent msg)).1 =
      Event.status ("Llamando a IA (" ++ AI_MODEL_NAME ++ ")...") ::
      aiChunkEvents sent ++
        [Event.error ("Error en análisis IA: " ++ msg), Event.final_data collected] := by
  cases collected with
  | nil => exact absurd rfl h
  | cons a l => rfl

lemma getLast_cons_append_pair (a b c : Event) (l : List Event) :
    (a :: l ++ [b, c]).getLast? = some c := by
  have h : a :: l ++ [b, c] = (a :: l ++ [b]) ++ [c] := by simp
  rw [h, List.getLast?_concat]

/-! ## Claim theorems -/

/-- Claim C3: for every comment record and thresholds, `is_comment_valid`
returns true if and only if the body is non-empty, is neither of the two
withdrawal sentinels, has a whitespace-split word count at least
`min_words`, and a score at least `min_score`; the inequalities are
non-strict, so boundary equality passes. -/
theorem is_comment_valid_iff (c : RawComment) (w : Nat) (s : Int) :
    is_comment_valid c w s = true ↔
      (c.body ≠ "" ∧ c.body ≠ "[deleted]" ∧ c.body ≠ "[removed]" ∧
        pyWordCount c.body ≥ w ∧ c.score ≥ s) := by
  simp [is_comment_valid, and_assoc]

/-- Claim C3 witness: a body of exactly three words with score exactly
two passes at thresholds three and two. -/
theorem is_comment_valid_boundary_witness :
    is_comment_valid boundaryComment 3 2 = true :=
  (is_comment_valid_iff boundaryComment 3 2).mpr (by decide)

/-- Claim C6: for every corpus and character budget, a corpus longer
than the budget is cut to exactly its first `M` characters followed by
the literal truncation marker, and a corpus within the budget is
embedded unchanged. -/
theorem prompt_truncation (s : String) (M : Nat) :
    (s.length > M →
      truncCore M s = firstChars M s ++ TRUNC_MARKER ∧
      (firstChars M s).length = M ∧
      (truncCore M s).length = M + TRUNC_MARKER.length) ∧
    (s.length ≤ M → truncCore M s = s) := by
  constructor
  · intro h
    have h1 : truncCore M s = firstChars M s ++ TRUNC_MARKER := by
      unfold truncCore
      rw [if_pos h]
    have hlen : s.length = s.data.length := rfl
    have h2 : (firstChars M s).length = M := by
      show (String.mk (s.data.take M)).length = M
      have hmk : (String.mk (s.data.take M)).length = (s.data.take M).length := rfl
      rw [hmk, List.length_take]
      omega
    refine ⟨h1, h2, ?_⟩
    rw [h1, String.length_append, h2]
  · intro h
    unfold truncCore
    rw [if_neg (by omega : ¬ s.length > M)]

/-- Claim C6 witness: both branches at concrete inputs. -/
theorem prompt_truncation_witness :
    truncCore 2 "abcd" = firstChars 2 "abcd" ++ TRUNC_MARKER ∧
    truncCore 5 "abcd" = "abcd" :=
  ⟨((prompt_truncation "abcd" 2).1 (by decide)).1,
   (prompt_truncation "abcd" 5).2 (by decide)⟩

/-- Claim C7: invoked on an empty collected sequence, the summarizer
tail emits exactly one status event, zero `ai_chunk` events, and never
invokes the model-completion collaborator (the Bool component), for
every possible model-stream behaviour. -/
theorem summarizer_empty_short_circuit (ai : AiOutcome) :
    postCollection [] ai =
      ([Event.status "No se encontraron comentarios válidos para análisis."], false) ∧
    (postCollection [] ai).1.filter isAiChunk = [] ∧
    (postCollection [] ai).1.length = 1 :=
  ⟨rfl, rfl, rfl⟩

/-- Claim C9 counterexample: a truthy non-string body reaches the
`split` call and raises AttributeError, so the filter is not total on
malformed bodies. -/
theorem is_comment_valid_dyn_raises_on_int_body :
    is_comment_valid_dyn { body := Option.some (PyVal.int 1), score := 5 } 1 1 =
      Except.error "AttributeError: split" := rfl

/-- Claim C9 (amended): the filter never raises when the body attribute
is present and is either a string or a falsy value; a falsy or sentinel
body fails the predicate.  (A truthy non-string body raises, and a
missing body attribute raises at access.) -/
theorem is_comment_valid_dyn_safe_bodies (c : PyComment) (w : Nat) (s : Int) (b : PyVal)
    (hb : c.body = Option.some b)
    (hsafe : (∃ t : String, b = PyVal.str t) ∨ pyTruthy b = false) :
    ∃ v : PyVal,
      is_comment_valid_dyn c w s = Except.ok v ∧
      ((pyTruthy b = false ∨ b = PyVal.str "[deleted]" ∨ b = PyVal.str "[removed]") →
        pyTruthy v = false) := by
  unfold is_comment_valid_dyn
  rw [hb]
  dsimp only
  by_cases ht : pyTruthy b = true
  · rw [if_pos ht]
    rcases hsafe with ⟨t, rfl⟩ | hf
    · by_cases hd : pyEqStr (PyVal.str t) "[deleted]" = true
      · rw [if_pos hd]
        exact ⟨PyVal.bool false, rfl, fun _ => rfl⟩
      · rw [if_neg hd]
        by_cases hr : pyEqStr (PyVal.str t) "[removed]" = true
        · rw [if_pos hr]
          exact ⟨PyVal.bool false, rfl, fun _ => rfl⟩
        · rw [if_neg hr]
          dsimp only
          by_cases hw : pyWordCount t < w
          · rw [if_pos hw]
            exact ⟨PyVal.bool false, rfl, fun _ => rfl⟩
          · rw [if_neg hw]
            refine ⟨PyVal.bool (decide (c.score ≥ s)), rfl, fun hpre => ?_⟩
            exfalso
            rcases hpre with hpre | hpre | hpre
            · rw [ht] at hpre; simp at hpre
            · apply hd; cases hpre; simp [pyEqStr]
            · apply hr; cases hpre; simp [pyEqStr]
    · exact absurd ht (by simp [hf])
  · rw [if_neg ht]
    have ht' : pyTruthy b = false := by
      cases hbt : pyTruthy b
      · rfl
      · exact absurd hbt ht
    exact ⟨b, rfl, fun _ => ht'⟩

/-- Claim C9 witness: an empty-string body is handled without raising
and fails the predicate. -/
theorem is_comment_valid_dyn_safe_bodies_witness :
    ({ body := Option.some (PyVal.str ""), score := 0 } : PyComment).body =
        Option.some (PyVal.str "") ∧
    ∃ v : PyVal,
      is_comment_valid_dyn { body := Option.some (PyVal.str ""), score := 0 } 1 0 =
        Except.ok v ∧
      ((pyTruthy (PyVal.str "") = false ∨ PyVal.str "" = PyVal.str "[deleted]" ∨
          PyVal.str "" = PyVal.str "[removed]") → pyTruthy v = false) :=
  ⟨rfl, is_comment_valid_dyn_safe_bodies
    { body := Option.some (PyVal.str ""), score := 0 } 1 0 (PyVal.str "") rfl
    (Or.inl ⟨"", rfl⟩)⟩

/-- Claim C1 counterexample: a completed, connected session whose
collection came back empty emits only status events and no `final_data`
event at all, so the session does not emit `final_data` when the
collected sequence is empty. -/
theorem run_stream_empty_emits_no_final_data :
    run_analysis_stream "x" (SearchOutcome.ok []) (AiOutcome.ok []) =
      [Event.status "Inicializando...",
       Event.status "Buscando posts para \x27x\x27...",
       Event.status "0 posts encontrados inicialmente.",
       Event.status "Recolección finalizada. 0 comentarios válidos encontrados.",
       Event.status "No se encontraron comentarios válidos para análisis."] ∧
    (run_analysis_stream "x" (SearchOutcome.ok []) (AiOutcome.ok [])).filter isFinalData =
      [] :=
  ⟨by decide, by decide⟩

/-- Claim C1 (amended): in a session whose search succeeds and whose
peer stays connected, if the collected sequence is non-empty the last
event is `final_data` carrying the full collected sequence (also when
the model call failed); if the collected sequence is empty the session
ends on a status event and emits no `final_data`. -/
theorem run_stream_final_data_iff_nonempty (search_term : String) (posts : List Post)
    (ai : AiOutcome) (hconn : ai.isDisconnect = false) :
    ((runCollection posts).1.collected_comments_data ≠ [] →
      (run_analysis_stream search_term (SearchOutcome.ok posts) ai).getLast? =
        some (Event.final_data (runCollection posts).1.collected_comments_data)) ∧
    ((runCollection posts).1.collected_comments_data = [] →
      (run_analysis_stream search_term (SearchOutcome.ok posts) ai).filter isFinalData =
        [] ∧
      (run_analysis_stream search_term (SearchOutcome.ok posts) ai).getLast? =
        some (Event.status "No se encontraron comentarios válidos para análisis.")) := by
  constructor
  · intro hne
    rw [run_stream_ok_decomp]
    cases ai with
    | ok chunks =>
      rw [postCollection_nonempty_ok _ chunks hne]
      rw [List.getLast?_append_of_ne_nil _ (by simp)]
      exact getLast_cons_append_pair _ _ _ _
    | fail sent msg =>
      rw [postCollection_nonempty_fail _ sent msg hne]
      rw [List.getLast?_append_of_ne_nil _ (by simp)]
      exact getLast_cons_append_pair _ _ _ _
    | disconnect sent => simp [AiOutcome.isDisconnect] at hconn
  · intro hemp
    rw [run_stream_ok_decomp, hemp]
    have hpc : (postCollection [] ai).1 =
        [Event.status "No se encontraron comentarios válidos para análisis."] := rfl
    rw [hpc]
    constructor
    · rw [List.filter_append]
      rw [filter_eq_nil_of_none _
        (fun e he => (isStatus_classify e (streamHeader_status _ _ e he)).2.1)]
      rfl
    · rw [List.getLast?_append_of_ne_nil _ (by simp)]
      rfl

/-- Claim C1 witness: a session with one valid comment, connected peer
and successful model stream ends on `final_data` with the collected
sequence. -/
theorem run_stream_final_data_iff_nonempty_witness :
    AiOutcome.isDisconnect (AiOutcome.ok []) = false ∧
    (runCollection [onePost]).1.collected_comments_data ≠ [] ∧
    (run_analysis_stream "x" (SearchOutcome.ok [onePost]) (AiOutcome.ok [])).getLast? =
      some (Event.final_data (runCollection [onePost]).1.collected_comments_data) :=
  ⟨rfl, by decide,
    (run_stream_final_data_iff_nonempty "x" [onePost] (AiOutcome.ok []) rfl).1 (by decide)⟩

/-- Claim C2 counterexample: the first message with action `start` and
an empty-string term passes validation and the analysis (the Collector)
is run with the empty term; no error event is produced. -/
theorem endpoint_empty_term_runs_analysis :
    websocket_endpoint_step [("action", JValue.str "start"), ("term", JValue.str "")] =
      EndpointStep.runAnalysis (JValue.str "") ∧
    websocket_endpoint_validate [("action", JValue.str "start"), ("term", JValue.str "")] =
      true :=
  ⟨rfl, rfl⟩

/-- Claim C2 (amended): a decoded first message whose action value is
not the string `start`, or which has no `term` key, fails validation:
the session sends the expected-shape error event and the Collector is
never run.  (A present `term` key passes validation whatever its value,
including the empty string.) -/
theorem endpoint_invalid_start_rejected (m : List (String × JValue))
    (h : jget m "action" ≠ Option.some (JValue.str "start") ∨
         jget m "term" = Option.none) :
    websocket_endpoint_step m = EndpointStep.reject INVALID_START_MSG ∧
    websocket_endpoint_validate m = false ∧
    ∀ t : JValue, websocket_endpoint_step m ≠ EndpointStep.runAnalysis t := by
  have hv : websocket_endpoint_validate m = false := by
    unfold websocket_endpoint_validate
    rcases h with h | h
    · have hbeq : (jget m "action" == Option.some (JValue.str "start")) = false := by
        simpa using h
      rw [hbeq, Bool.false_and]
    · rw [h]
      simp
  refine ⟨?_, hv, ?_⟩
  · simp [websocket_endpoint_step, hv]
  · intro t
    simp [websocket_endpoint_step, hv]

/-- Claim C2 witness: a message without action and term keys is
rejected with the expected-shape error. -/
theorem endpoint_invalid_start_rejected_witness :
    websocket_endpoint_step [("foo", JValue.other)] =
      EndpointStep.reject INVALID_START_MSG :=
  (endpoint_invalid_start_rejected [("foo", JValue.other)] (Or.inl (by decide))).1

/-- Claim C4 counterexample: if the materialized search results hold the
same post twice, the per-post counter restarts on the second pass and
eleven collected comments carry that post id, exceeding the per-post cap
of ten. -/
theorem duplicate_post_exceeds_per_post_cap :
    (((runCollection [dupPost, dupPost]).1.collected_comments_data.filter
        (fun cc => cc.post_id == "p1")).length = 11) ∧
    MAX_COMMENTS_PER_POST_TARGET = 10 :=
  ⟨by decide, rfl⟩

/-- Claim C4 (amended): the collected sequence never exceeds
`TOTAL_COMMENTS_TARGET` entries; and provided each post appears at most
once in the materialized search results (pairwise-distinct post ids),
at most `MAX_COMMENTS_PER_POST_TARGET` collected comments carry any
single post id.  Every intermediate state of the loop is the final
state of a truncated input, so the bounds hold at all times. -/
theorem collection_caps (posts : List Post) :
    (runCollection posts).1.collected_comments_data.length ≤ TOTAL_COMMENTS_TARGET ∧
    ((posts.map Post.id).Nodup →
      ∀ pid : String,
        ((runCollection posts).1.collected_comments_data.filter
            (fun cc => cc.post_id == pid)).length ≤ MAX_COMMENTS_PER_POST_TARGET) := by
  constructor
  · have h := collectLoop_total_le posts.length posts initState (by simp [initState])
    simpa [runCollection] using h
  · intro hnd pid
    have h := collectLoop_per_post pid posts.length posts initState hnd
    have h2 : ((collectLoop posts.length posts initState).1.collected_comments_data.filter
        (fun cc => cc.post_id == pid)).length ≤ MAX_COMMENTS_PER_POST_TARGET := by
      refine le_trans h ?_
      simp only [initState, List.filter_nil, List.length_nil, Nat.zero_add]
      split
      · exact le_refl _
      · exact Nat.zero_le _
    simpa [runCollection] using h2

/-- Claim C4 witness: one post with a single valid comment satisfies
both caps. -/
theorem collection_caps_witness :
    ([onePost].map Post.id).Nodup ∧
    (runCollection [onePost]).1.collected_comments_data.length ≤
      TOTAL_COMMENTS_TARGET ∧
    ((runCollection [onePost]).1.collected_comments_data.filter
        (fun cc => cc.post_id == "p1")).length ≤ MAX_COMMENTS_PER_POST_TARGET :=
  ⟨by decide, (collection_caps [onePost]).1, (collection_caps [onePost]).2 (by decide) "p1"⟩

/-- Claim C5: the id set only grows across the loop; records appended
by the loop never carry an id seen at entry; and in a session run from
the empty state every comment id occurs in the collected sequence at
most once, even when the same id occurs under several posts of the
source. -/
theorem collection_dedup :
    (∀ (total : Nat) (posts : List Post) (st : CollectState),
        st.collected_comment_ids.all
          (fun x => (collectLoop total posts st).1.collected_comment_ids.contains x) =
          true) ∧
    (∀ (total : Nat) (posts : List Post) (st : CollectState),
        (collectLoop total posts st).1.collected_comments_data.take
            st.collected_comments_data.length = st.collected_comments_data ∧
        ((collectLoop total posts st).1.collected_comments_data.drop
            st.collected_comments_data.length).all
          (fun cc => !st.collected_comment_ids.contains cc.comment_id) = true) ∧
    (∀ (posts : List Post) (cid : String),
        ((runCollection posts).1.collected_comments_data.map
            (fun cc => cc.comment_id)).count cid ≤ 1) := by
  refine ⟨?_, ?_, ?_⟩
  · intro total posts st
    rw [List.all_eq_true]
    intro x hx
    obtain ⟨new, hcoll, hprops, ids, hids⟩ := collectLoop_spec total posts st
    have hmem : x ∈ (collectLoop total posts st).1.collected_comment_ids := by
      rw [hids]; exact List.mem_append_right _ hx
    simpa using hmem
  · intro total posts st
    obtain ⟨new, hcoll, hprops, ids, hids⟩ := collectLoop_spec total posts st
    have hdrop : (st.collected_comments_data ++ new).drop
        st.collected_comments_data.length = new := by simp
    constructor
    · rw [hcoll]; simp
    · rw [hcoll, hdrop, List.all_eq_true]
      intro cc hcc
      have hnin := hprops cc hcc
      simpa using hnin
  · intro posts cid
    obtain ⟨heq, hnd⟩ := collectLoop_inv posts.length posts initState ⟨rfl, List.nodup_nil⟩
    have hmapnd : ((collectLoop posts.length posts initState).1.collected_comments_data.map
        (fun cc => cc.comment_id)).Nodup := by
      rw [heq] at hnd
      exact List.nodup_reverse.mp hnd
    have h := List.nodup_iff_count_le_one.mp hmapnd cid
    simpa [runCollection] using h

/-- Claim C8: in a session whose search succeeded, collected at least
one comment, and whose model call fails during or before streaming
(peer still connected), the trace is a prefix free of error events
followed by exactly one terminal error event and then the `final_data`
event carrying everything collected; in particular no `ai_chunk`
follows the error and the collection results are not discarded. -/
theorem summarization_failure_single_error_then_final_data (search_term : String)
    (posts : List Post) (sent : List (Option String)) (msg : String)
    (h : (runCollection posts).1.collected_comments_data ≠ []) :
    ∃ pre : List Event,
      run_analysis_stream search_term (SearchOutcome.ok posts) (AiOutcome.fail sent msg) =
        pre ++ [Event.error ("Error en análisis IA: " ++ msg),
          Event.final_data (runCollection posts).1.collected_comments_data] ∧
      pre.all (fun e => !isError e) = true ∧
      ((run_analysis_stream search_term (SearchOutcome.ok posts)
          (AiOutcome.fail sent msg)).filter isError).length = 1 := by
  refine ⟨streamHeader search_term posts ++
    (Event.status ("Llamando a IA (" ++ AI_MODEL_NAME ++ ")...") :: aiChunkEvents sent),
    ?_, ?_, ?_⟩
  · rw [run_stream_ok_decomp, postCollection_nonempty_fail _ sent msg h]
    simp [List.append_assoc]
  · rw [List.all_eq_true]
    intro e he
    rcases List.mem_append.mp he with he | he
    · have hcl := (isStatus_classify e (streamHeader_status _ _ e he)).1
      simp [hcl]
    · rcases List.mem_cons.mp he with rfl | he'
      · rfl
      · have hcl := (isAiChunk_classify e (aiChunkEvents_shape sent e he')).1
        simp [hcl]
  · have hB : (aiChunkEvents sent).filter isError = [] :=
      filter_eq_nil_of_none _
        (fun e he => (isAiChunk_classify e (aiChunkEvents_shape sent e he)).1)
    have hH : (streamHeader search_term posts).filter isError = [] :=
      filter_eq_nil_of_none _
        (fun e he => (isStatus_classify e (streamHeader_status _ _ e he)).1)
    rw [run_stream_ok_decomp, postCollection_nonempty_fail _ sent msg h]
    simp [List.filter_append, List.filter_cons, hB, hH, isError]

/-- Claim C8 witness: one valid comment collected, model call fails
immediately with message boom. -/
theorem summarization_failure_witness :
    (runCollection [onePost]).1.collected_comments_data ≠ [] ∧
    ∃ pre : List Event,
      run_analysis_stream "x" (SearchOutcome.ok [onePost]) (AiOutcome.fail [] "boom") =
        pre ++ [Event.error ("Error en análisis IA: " ++ "boom"),
          Event.final_data (runCollection [onePost]).1.collected_comments_data] ∧
      pre.all (fun e => !isError e) = true ∧
      ((run_analysis_stream "x" (SearchOutcome.ok [onePost])
          (AiOutcome.fail [] "boom")).filter isError).length = 1 :=
  ⟨by decide,
    summarization_failure_single_error_then_final_data "x" [onePost] [] "boom" (by decide)⟩

/-- Claim C10: after any session run from the empty state, the id list
is exactly the (reversed) id column of the collected sequence: same
elements as a set, pairwise-distinct collected ids, and equal sizes.
Every intermediate state of the loop is the final state of a truncated
input, so the invariant holds at every point of the loop. -/
theorem collection_seen_matches_collected (posts : List Post) :
    (runCollection posts).1.collected_comment_ids =
      ((runCollection posts).1.collected_comments_data.map
          (fun cc => cc.comment_id)).reverse ∧
    (runCollection posts).1.collected_comment_ids.toFinset =
      ((runCollection posts).1.collected_comments_data.map
          (fun cc => cc.comment_id)).toFinset ∧
    ((runCollection posts).1.collected_comments_data.map
        (fun cc => cc.comment_id)).Nodup ∧
    (runCollection posts).1.collected_comment_ids.length =
      (runCollection posts).1.collected_comments_data.length := by
  obtain ⟨heq, hnd⟩ := collectLoop_inv posts.length posts initState ⟨rfl, List.nodup_nil⟩
  have heq' : (runCollection posts).1.collected_comment_ids =
      ((runCollection posts).1.collected_comments_data.map
          (fun cc => cc.comment_id)).reverse := heq
  have hnd' : (runCollection posts).1.collected_comment_ids.Nodup := hnd
  refine ⟨heq', ?_, ?_, ?_⟩
  · rw [heq']
    exact List.toFinset_reverse
  · rw [heq'] at hnd'
    exact List.nodup_reverse.mp hnd'
  · rw [heq']
    simp
